import Mathlib

/-!
Verification development for the `terminal-widgets` dashboard engine.

Shallow embedding of the parts of the code relevant to the checked
properties:

* `src/twidgets/core/base.py` — log aggregation (`LogMessage`,
  `LogMessages`), widget-config validation (`Config.__init__`), the
  `updatable` predicate, the config scanner (`ConfigScanner.scan_config`),
  the mouse hit-test (`switch_windows`, `handle_mouse_input`), the
  terminal-size check (`validate_terminal_size`) and the background
  refresh scheduler (`reload_widget_scheduler`).
* `src/twidgets/main.py` — the per-frame size re-check and the render
  loop's snapshot read.
* `src/widgets/todo.py` — the windowed list renderer `render_todos`.

Python scalars coming out of YAML are modelled by `YamlValue`; time
stamps (`time.time()` floats) are modelled by rationals; Python dict /
list payloads for a widget's `draw_data` are modelled by `DrawData`.
Python semantics that matter are reproduced exactly: truthiness,
`isinstance` (in Python `bool` is a subclass of `int`), `== 0`
comparisons, floor division `//`, and list slicing.
-/

namespace TWidgets

/-! ### YAML scalar values and Python semantics -/

/-- Scalar values a YAML config field can hold (compound YAML values do
not occur in the fields the checked claims are about). `vnull` stands
both for an absent key (the `None` default of `Config.__init__`) and an
explicit YAML `null`: Python receives `None` in both cases. -/
inductive YamlValue where
  | vnull
  | vbool (b : Bool)
  | vint (n : Int)
  | vfloat (q : ℚ)
  | vstr (s : String)
deriving DecidableEq

/-- Python truthiness of a scalar: `None` is falsy, numbers are truthy
iff non-zero, strings iff non-empty. -/
def pyTruthy : YamlValue → Bool
  | .vnull => false
  | .vbool b => b
  | .vint n => n != 0
  | .vfloat q => q != 0
  | .vstr s => s != ""

/-- Python `value == 0`: true for `0`, `0.0` and `False` (Python bools
compare equal to ints), false for `None`, strings and non-zero numbers. -/
def pyEqZero : YamlValue → Bool
  | .vnull => false
  | .vbool b => !b
  | .vint n => n == 0
  | .vfloat q => q == 0
  | .vstr _ => false

/-- Python `isinstance(v, str)`. -/
def pyIsStr : YamlValue → Bool
  | .vstr _ => true
  | _ => false

/-- Python `isinstance(v, bool)`. -/
def pyIsBool : YamlValue → Bool
  | .vbool _ => true
  | _ => false

/-- Python `isinstance(v, int)`: `bool` is a subclass of `int`. -/
def pyIsInt : YamlValue → Bool
  | .vint _ => true
  | .vbool _ => true
  | _ => false

/-- Python `isinstance(v, (int, float))`: ints, floats and bools. -/
def pyIsNumber : YamlValue → Bool
  | .vint _ => true
  | .vfloat _ => true
  | .vbool _ => true
  | _ => false

/-- The interval values that can actually reach a built widget:
`None`, an int, a float or a bool (everything else is rejected by the
validator, and the config scan blocks startup on any Error). -/
def isNumericOrAbsent : YamlValue → Bool
  | .vstr _ => false
  | _ => true

/-! ### Log aggregation (`LogMessage` / `LogMessages`, base.py 174-267) -/

/-- Numeric key of `LogLevels.ERROR` (base.py 179). -/
def errorLevel : Nat := 4

/-- Numeric key of `LogLevels.WARNING` (base.py 178). -/
def warningLevel : Nat := 3

/-- One leveled log message (base.py 198-212). -/
structure LogMessage where
  message : String
  level : Nat
deriving DecidableEq

/-- `LogMessage.is_error` (base.py 209-212). -/
def LogMessage.isErrorMsg (m : LogMessage) : Bool := m.level == errorLevel

/-- `LogMessages.contains_error` (base.py 258-262): the aggregate holds
at least one Error-level entry. An aggregate is its ordered list of
messages; `+` on aggregates is list concatenation (base.py 222-225). -/
def containsError (msgs : List LogMessage) : Bool := msgs.any (·.isErrorMsg)

/-! ### Widget config validation (`Config.__init__`, base.py 270-316) -/

/-- The eight required config fields (base.py 285-294). -/
inductive ReqField where
  | fname
  | ftitle
  | fenabled
  | finterval
  | fheight
  | fwidth
  | fy
  | fx
deriving DecidableEq

/-- Field names as they appear in the error message (base.py 285-294). -/
def reqFieldName : ReqField → String
  | .fname => "name"
  | .ftitle => "title"
  | .fenabled => "enabled"
  | .finterval => "interval"
  | .fheight => "height"
  | .fwidth => "width"
  | .fy => "y"
  | .fx => "x"

/-- Expected-type check per field (base.py 285-294): `name`/`title` are
`str`, `enabled` is `bool`, `interval` is `(int, float)`, the four
geometry fields are `int`. -/
def reqFieldCheck : ReqField → YamlValue → Bool
  | .fname => pyIsStr
  | .ftitle => pyIsStr
  | .fenabled => pyIsBool
  | .finterval => pyIsNumber
  | .fheight => pyIsInt
  | .fwidth => pyIsInt
  | .fy => pyIsInt
  | .fx => pyIsInt

/-- Declaration order of the validation loop (base.py 285-294). -/
def reqFieldList : List ReqField :=
  [.fname, .ftitle, .fenabled, .finterval, .fheight, .fwidth, .fy, .fx]

/-- Raw keyword arguments of `Config.__init__`: each required field is
the scalar the YAML file supplied, `vnull` when the key is absent (the
parameter default) or the YAML value was `null`. Extra keys are set as
attributes verbatim and play no role in the checked claims. -/
structure RawOptions where
  name : YamlValue
  title : YamlValue
  enabled : YamlValue
  interval : YamlValue
  height : YamlValue
  width : YamlValue
  y : YamlValue
  x : YamlValue
deriving DecidableEq

/-- Value of one required field inside the raw options. -/
def reqFieldValue (raw : RawOptions) : ReqField → YamlValue
  | .fname => raw.name
  | .ftitle => raw.title
  | .fenabled => raw.enabled
  | .finterval => raw.interval
  | .fheight => raw.height
  | .fwidth => raw.width
  | .fy => raw.y
  | .fx => raw.x

/-- The per-field failure test of base.py 297:
`value is None or not isinstance(value, expected_type)`. -/
def fieldBad (v : YamlValue) (check : YamlValue → Bool) : Bool :=
  v == .vnull || !check v

/-- The exact error text of base.py 298-301. -/
def configErrMsg (fieldName fileName : String) : String :=
  "Configuration for " ++ fieldName ++
    " is missing / incorrect (\"" ++ fileName ++ "\" widget)"

/-- The typed values `Config.__init__` stores (base.py 303-310): every
field is kept as given (the `typing.cast` calls do nothing at runtime),
except that an interval comparing `== 0` is normalized to `None`
(base.py 307-308). -/
structure ConfigM where
  name : YamlValue
  title : YamlValue
  enabled : YamlValue
  interval : YamlValue
  height : YamlValue
  width : YamlValue
  y : YamlValue
  x : YamlValue
deriving DecidableEq

/-- `Config.__init__` (base.py 271-313): walks the eight required fields
in order, appending one Error-level message per missing / mistyped field,
then stores best-effort values. It never raises. -/
def configInit (fileName : String) (raw : RawOptions) : ConfigM × List LogMessage :=
  let logs : List LogMessage := reqFieldList.filterMap fun f =>
    if fieldBad (reqFieldValue raw f) (reqFieldCheck f) then
      some ⟨configErrMsg (reqFieldName f) fileName, errorLevel⟩
    else none
  let cfg : ConfigM :=
    { name := raw.name
      title := raw.title
      enabled := raw.enabled
      interval := if pyEqZero raw.interval then .vnull else raw.interval
      height := raw.height
      width := raw.width
      y := raw.y
      x := raw.x }
  (cfg, logs)

/-! ### Widget capability predicate (`Widget.updatable`, base.py 85-88) -/

/-- The slice of a runtime `Widget` that `updatable` reads: whether an
update function is bound (`self._update_func`, `None` or a callable),
the widget's `interval` and its config's `enabled` flag. -/
structure WidgetM where
  updateFunc : Option Unit
  interval : YamlValue
  enabled : YamlValue
deriving DecidableEq

/-- `Widget.updatable` (base.py 85-88):
`if self._update_func and self.interval and self.config.enabled`. -/
def WidgetM.updatable (w : WidgetM) : Bool :=
  w.updateFunc.isSome && pyTruthy w.interval && pyTruthy w.enabled

/-! ### Draw payloads and the scheduler (`reload_widget_scheduler`,
base.py 1064-1091) -/

/-- A widget's `draw_data` payload: either a keyed map or a list of text
lines (`dict[str, Any] | list[str]`). String-valued entries suffice for
the claims checked here. -/
inductive DrawData where
  | dictD (entries : List (String × String))
  | linesD (ls : List String)
deriving DecidableEq

/-- The payload stored when `update` raises (base.py 1088):
`{'__error__': str(e)}`. -/
def errorDrawData (e : String) : DrawData := .dictD [("__error__", e)]

/-- The render loop's error-marker test (main.py 112:
`'__error__' in data_copy`; Python `in` is key membership for dicts and
element membership for lists). -/
def hasErrorMarker : DrawData → Bool
  | .dictD entries => entries.any (fun p => p.1 == "__error__")
  | .linesD ls => ls.any (fun s => s == "__error__")

/-- Scheduler-relevant state of one widget: `interval` (numeric, the
scheduler only visits widgets with `updatable()` true), `last_updated`
(initially `0`, `None` is skipped defensively, base.py 1079-1080), and
the shared `draw_data`. Timestamps are rationals standing for
`time.time()` values. -/
structure SchedWidget where
  interval : ℚ
  lastUpdated : Option ℚ
  drawData : DrawData
deriving DecidableEq

/-- Result of one `widget.update(config_loader)` call: a payload, or the
text of the exception it raised. -/
abbrev UpdateResult := Except String DrawData

/-- One scheduler visit of one widget at tick time `now`
(base.py 1079-1088): skip when `last_updated` is `None`; when
`now - last_updated >= interval`, publish the update result — on success
store the payload and set `last_updated = now`, on an exception store
the error payload and leave `last_updated` unchanged. The second
component is `some now` exactly when a refresh was accepted
(payload stored and `last_updated` advanced). -/
def schedStep (now : ℚ) (upd : UpdateResult) (w : SchedWidget) :
    SchedWidget × Option ℚ :=
  match w.lastUpdated with
  | none => (w, none)
  | some l =>
    if w.interval ≤ now - l then
      match upd with
      | .ok p => ({ w with drawData := p, lastUpdated := some now }, some now)
      | .error e => ({ w with drawData := errorDrawData e }, none)
    else (w, none)

/-- Times of the accepted refreshes of one widget over a run of the
scheduler loop, given the tick times and the outcome each `update` call
would produce at that tick. -/
def acceptedTimes (w : SchedWidget) : List (ℚ × UpdateResult) → List ℚ
  | [] => []
  | tk :: rest =>
    match schedStep tk.1 tk.2 w with
    | (w2, some t) => t :: acceptedTimes w2 rest
    | (w2, none) => acceptedTimes w2 rest

/-- The inner `for widget in reloadable_widgets` loop of one tick
(base.py 1075-1088), visiting widgets in declaration order; `upd i` is
the outcome widget `i`'s `update` call would produce this tick. The
`try/except` around each call means the loop always proceeds to the
next widget. -/
def schedulerTickFrom (now : ℚ) (upd : Nat → UpdateResult) :
    Nat → List SchedWidget → List SchedWidget
  | _, [] => []
  | i, w :: rest =>
    (schedStep now (upd i) w).1 :: schedulerTickFrom now upd (i + 1) rest

/-- One full scheduler tick over the widget list. -/
def schedulerTick (now : ℚ) (upd : Nat → UpdateResult)
    (ws : List SchedWidget) : List SchedWidget :=
  schedulerTickFrom now upd 0 ws

/-- The scheduler's outer `while not stop_event.is_set()` loop
(base.py 1072-1091) over a finite list of ticks. -/
def schedulerRun : List (ℚ × (Nat → UpdateResult)) → List SchedWidget →
    List SchedWidget
  | [], ws => ws
  | tk :: rest, ws => schedulerRun rest (schedulerTick tk.1 tk.2 ws)

/-! ### Config scanner (`ConfigScanner.scan_config`, base.py 965-992) -/

/-- Outcome of one loader call inside the scan: `.ok logs` models
`load_base_config` / `load_widget_config` returning after appending
`logs` to the fresh `current_log`; `.error e` models the call raising
`YAMLParseException` with text `e`. -/
abbrev LoadOutcome := Except String (List LogMessage)

/-- What one file contributes to `final_log` (base.py 974-988): an
aggregate is merged only when it contains an Error; a YAML-parse failure
contributes one synthetic Error message. -/
def outcomeContribution : LoadOutcome → List LogMessage
  | .ok current => if containsError current then current else []
  | .error e => [⟨e, errorLevel⟩]

/-- The merged `final_log` after the base file and every widget file. -/
def scanFinalLog (base : LoadOutcome) (widgets : List LoadOutcome) :
    List LogMessage :=
  widgets.foldl (fun acc o => acc ++ outcomeContribution o)
    (outcomeContribution base)

/-- `ConfigScanner.scan_config` (base.py 969-992): `none` models the
`return True` (no Error found), `some logs` the returned aggregate. -/
def scanConfig (base : LoadOutcome) (widgets : List LoadOutcome) :
    Option (List LogMessage) :=
  let finalLog := scanFinalLog base widgets
  if containsError finalLog then some finalLog else none

/-- Whether an outcome carries an Error (a parse failure always does). -/
def outcomeHasError : LoadOutcome → Bool
  | .ok log => containsError log
  | .error _ => true

/-- The scan's widget-file loader instantiated with the real validator
(base.py 953-962 + 984): parsing succeeded, so the outcome is the
aggregate `Config.__init__` produced for this file. -/
def widgetLoadOutcome (fileName : String) (raw : RawOptions) : LoadOutcome :=
  .ok (configInit fileName raw).2

/-! ### Geometry, UI state and the mouse hit-test
(`switch_windows` base.py 995-1016, `handle_mouse_input` base.py
1019-1035) -/

/-- `Dimensions` (base.py 20-28). -/
structure Dim where
  height : Int
  width : Int
  y : Int
  x : Int
deriving DecidableEq

/-- The hit-test of base.py 1009-1014:
`y1 <= my <= y2 and x1 <= mx <= x2` with `y2 = y1 + height`,
`x2 = x1 + width` — inclusive on both edges. -/
def containsPoint (d : Dim) (mx my : Int) : Bool :=
  (d.y ≤ my && my ≤ d.y + d.height) && (d.x ≤ mx && mx ≤ d.x + d.width)

/-- `UIState` (base.py 102-105), widgets identified by their position in
declaration order. -/
structure UIStateM where
  previouslyHighlighted : Option Nat
  highlighted : Option Nat
deriving DecidableEq

/-- The `for widget in widget_list: ... break` search of base.py
1008-1016: index of the first widget whose rectangle contains the click
point. -/
def firstHitIdx (mx my : Int) : List Dim → Option Nat
  | [] => none
  | d :: rest =>
    if containsPoint d mx my then some 0
    else (firstHitIdx mx my rest).map (· + 1)

/-- `switch_windows` (base.py 995-1016): records the old highlight in
`previously_highlighted`, clears `highlighted`, then assigns the first
hit (or leaves it `None`). -/
def switchWindows (ui : UIStateM) (mx my : Int) (ws : List Dim) : UIStateM :=
  { previouslyHighlighted := ui.highlighted
    highlighted := firstHitIdx mx my ws }

/-- The `BUTTON1_PRESSED` branch of `handle_mouse_input`
(base.py 1029-1032): run `switch_windows`, then invoke `mouse_action`
on the newly highlighted widget only when one exists. The second
component is the index of the widget whose `onMouse` handler is
invoked, `none` when no handler is invoked. -/
def handleMousePress (ui : UIStateM) (mx my : Int) (ws : List Dim) :
    UIStateM × Option Nat :=
  let ui2 := switchWindows ui mx my ws
  (ui2, ui2.highlighted)

/-! ### Terminal-size check (`validate_terminal_size` base.py 749-753,
per-frame re-check main.py 84-88) -/

/-- The payload of `TerminalTooSmall` (base.py 122-129): the exact
current and minimum (height, width). -/
structure TooSmallData where
  height : Int
  width : Int
  minHeight : Int
  minWidth : Int
deriving DecidableEq

/-- `validate_terminal_size` (base.py 749-753): `some d` models the
raise, `none` a silent return. -/
def validateTerminalSize (height width minHeight minWidth : Int) :
    Option TooSmallData :=
  if height < minHeight || width < minWidth then
    some ⟨height, width, minHeight, minWidth⟩
  else none

/-- A widget as the size check sees it: geometry plus the enabled flag. -/
structure EWidget where
  dims : Dim
  enabled : Bool
deriving DecidableEq

/-- `max(widget.dimensions.height + widget.dimensions.y for widget in
widget_list if widget.config.enabled)` (main.py 84-85); `none` when no
widget is enabled (Python would raise `ValueError` there, a case outside
the checked claims). -/
def requiredHeightOpt (ws : List EWidget) : Option Int :=
  ((ws.filter (·.enabled)).map (fun w => w.dims.height + w.dims.y)).max?

/-- Same for the width bound (main.py 86-87). -/
def requiredWidthOpt (ws : List EWidget) : Option Int :=
  ((ws.filter (·.enabled)).map (fun w => w.dims.width + w.dims.x)).max?

/-- The size check one frame performs (main.py 84-88): recompute the
bounding box of the enabled widgets, then `validate_terminal_size`. -/
def frameSizeCheck (ws : List EWidget) (term : Int × Int) :
    Option TooSmallData :=
  match requiredHeightOpt ws, requiredWidthOpt ws with
  | some rh, some rw => validateTerminalSize term.1 term.2 rh rw
  | _, _ => none

/-- The render loop's frames (main.py 82-88): the size check runs at the
top of every iteration with that frame's terminal size; the first
too-small frame raises out of the loop. Returns how many frames passed
the check when none raised. -/
def renderLoopSizeChecks (ws : List EWidget) :
    List (Int × Int) → Except TooSmallData Nat
  | [] => .ok 0
  | sz :: rest =>
    match frameSizeCheck ws sz with
    | some e => .error e
    | none =>
      match renderLoopSizeChecks ws rest with
      | .ok n => .ok (n + 1)
      | .error e => .error e

/-! ### Windowed to-do rendering (`render_todos`, todo.py 130-160) -/

/-- Window start for a highlighted line (todo.py 138-144): center the
window on the highlight (`//` is floor division, matching Lean's `Int`
division), clamped to the list. -/
def sliceStart (n h maxRender : Int) : Int :=
  let radius := maxRender / 2
  let s := max (h - radius) 0
  if s + maxRender > n then max (n - maxRender) 0 else s

/-- `render_todos` (todo.py 130-160). A short list is returned as-is
with the highlight unchanged; a long list is windowed (`todos[start:end]`
is `drop`/`take` — `start` is always non-negative here), `'...'` is
appended when the window stops short of the list's end, and a highlight
at or past the window size would be pinned to the last visible line. -/
def renderTodos (todos : List String) (highlightedLine : Option Int)
    (maxRender : Int) : List String × Option Int :=
  let n : Int := todos.length
  if n ≤ maxRender then (todos, highlightedLine)
  else
    let start : Int :=
      match highlightedLine with
      | none => 0
      | some h => sliceStart n h maxRender
    let stop : Int := start + maxRender
    let visible : List String := (todos.drop start.toNat).take (stop - start).toNat
    let relIndex : Option Int := highlightedLine.map (fun h => h - start)
    if stop < n then
      (visible ++ ["..."],
        relIndex.map (fun r => if maxRender ≤ r then maxRender - 1 else r))
    else
      (visible, relIndex)

/-! ### Lock discipline around `draw_data` (base.py 1083-1088,
main.py 109-115) -/

/-- Memory locations crossing the scheduler / render-loop boundary. -/
inductive MemRef where
  | sharedDrawData
  | localCopy
deriving DecidableEq

/-- Direction of an access. -/
inductive MemOp where
  | readM
  | writeM
deriving DecidableEq

/-- One access to `draw_data` state, tagged with whether the widget's
lock is held at that program point. -/
structure AccessEvt where
  op : MemOp
  ref : MemRef
  lockHeld : Bool
deriving DecidableEq

/-- The scheduler's publish of a new payload: both the success path
(`widget.draw_data = widget.update(...)`, base.py 1085) and the error
path (`widget.draw_data = {'__error__': str(e)}`, base.py 1088) are
plain attribute assignments with no `with widget.lock` around them. -/
def schedulerPublishEvt : AccessEvt := ⟨.writeM, .sharedDrawData, false⟩

/-- The render loop's per-frame accesses for an updatable widget with a
non-empty payload (main.py 109-115): first `data_copy =
widget.draw_data.copy()` inside `with widget.lock` (lines 110-111);
then, when the copy carries the error marker, the error text is taken
from `widget.draw_data['__error__']` — the shared dict — outside the
lock (line 113); otherwise the draw uses only `data_copy` (line 115). -/
def renderSnapshotEvts (copyHasErrorMarker : Bool) : List AccessEvt :=
  ⟨.readM, .sharedDrawData, true⟩ ::
    (if copyHasErrorMarker then [⟨.readM, .sharedDrawData, false⟩]
     else [⟨.readM, .localCopy, false⟩])

/-- The lock protocol the specification asserts: every write of the
shared payload happens under the lock, and every read the render loop
performs is either under the lock or from its private copy. -/
def c1LockClaimHolds : Bool :=
  schedulerPublishEvt.lockHeld &&
    (renderSnapshotEvts true ++ renderSnapshotEvts false).all
      (fun e => e.ref == MemRef.localCopy || e.lockHeld)

/-! ## Helper lemmas -/

theorem configInit_snd (fileName : String) (raw : RawOptions) :
    (configInit fileName raw).2 = reqFieldList.filterMap fun f =>
      if fieldBad (reqFieldValue raw f) (reqFieldCheck f) then
        some ⟨configErrMsg (reqFieldName f) fileName, errorLevel⟩
      else none := rfl

theorem reqField_mem_list (f : ReqField) : f ∈ reqFieldList := by
  cases f <;> decide

theorem firstHitIdx_eq_none (mx my : Int) (ws : List Dim)
    (h : ∀ d ∈ ws, containsPoint d mx my = false) :
    firstHitIdx mx my ws = none := by
  induction ws with
  | nil => rfl
  | cons d rest ih =>
    have hd := h d (List.mem_cons_self d rest)
    rw [firstHitIdx, if_neg (by simp [hd]),
      ih (fun x hx => h x (List.mem_cons_of_mem d hx))]
    rfl

theorem firstHitIdx_spec (mx my : Int) :
    ∀ (ws : List Dim) (i : Nat), firstHitIdx mx my ws = some i →
      ∃ d, ws[i]? = some d ∧ containsPoint d mx my = true
        ∧ ∀ j, j < i → ∀ d2, ws[j]? = some d2 → containsPoint d2 mx my = false := by
  intro ws
  induction ws with
  | nil => intro i h; simp [firstHitIdx] at h
  | cons d rest ih =>
    intro i h
    by_cases hc : containsPoint d mx my = true
    · rw [firstHitIdx, if_pos hc] at h
      cases h
      refine ⟨d, by simp, hc, ?_⟩
      intro j hj
      exact absurd hj (Nat.not_lt_zero j)
    · rw [firstHitIdx, if_neg hc] at h
      obtain ⟨i2, hi2, rfl⟩ : ∃ i2, firstHitIdx mx my rest = some i2 ∧ i = i2 + 1 := by
        cases hfr : firstHitIdx mx my rest with
        | none => rw [hfr] at h; cases h
        | some k =>
          rw [hfr] at h
          cases h
          exact ⟨k, rfl, rfl⟩
      obtain ⟨d2, hd2, hc2, hall⟩ := ih i2 hi2
      refine ⟨d2, by simpa using hd2, hc2, ?_⟩
      intro j hj d3 hd3
      cases j with
      | zero =>
        simp only [List.getElem?_cons_zero, Option.some.injEq] at hd3
        subst hd3
        exact Bool.not_eq_true _ ▸ (by simpa using hc)
      | succ j2 =>
        exact hall j2 (by omega) d3 (by simpa using hd3)

theorem firstHitIdx_ne_none (mx my : Int) :
    ∀ ws : List Dim, (∃ d ∈ ws, containsPoint d mx my = true) →
      firstHitIdx mx my ws ≠ none := by
  intro ws
  induction ws with
  | nil => rintro ⟨d, hd, _⟩; cases hd
  | cons d rest ih =>
    rintro ⟨d2, hd2, hc2⟩
    by_cases hc : containsPoint d mx my = true
    · rw [firstHitIdx, if_pos hc]; simp
    · rw [firstHitIdx, if_neg hc]
      rcases List.mem_cons.mp hd2 with rfl | hmem
      · exact absurd hc2 hc
      · have := ih ⟨d2, hmem, hc2⟩
        cases hfr : firstHitIdx mx my rest with
        | none => exact absurd hfr this
        | some k => simp [hfr]

theorem schedStep_interval_const (now : ℚ) (upd : UpdateResult) (w : SchedWidget) :
    (schedStep now upd w).1.interval = w.interval := by
  rcases hl : w.lastUpdated with _ | l
  · simp [schedStep, hl]
  · simp only [schedStep, hl]
    split_ifs with hg
    · cases upd <;> rfl
    · rfl

theorem schedStep_none (now : ℚ) (upd : UpdateResult) (w : SchedWidget)
    (hl : w.lastUpdated = none) : schedStep now upd w = (w, none) := by
  simp [schedStep, hl]

theorem schedStep_guardFail (now : ℚ) (upd : UpdateResult) (w : SchedWidget) (l : ℚ)
    (hl : w.lastUpdated = some l) (hg : ¬ w.interval ≤ now - l) :
    schedStep now upd w = (w, none) := by
  simp only [schedStep, hl]
  rw [if_neg hg]

theorem schedStep_ok (now : ℚ) (p : DrawData) (w : SchedWidget) (l : ℚ)
    (hl : w.lastUpdated = some l) (hg : w.interval ≤ now - l) :
    schedStep now (.ok p) w =
      ({ w with drawData := p, lastUpdated := some now }, some now) := by
  simp only [schedStep, hl]
  rw [if_pos hg]

theorem schedStep_err (now : ℚ) (e : String) (w : SchedWidget) (l : ℚ)
    (hl : w.lastUpdated = some l) (hg : w.interval ≤ now - l) :
    schedStep now (.error e) w = ({ w with drawData := errorDrawData e }, none) := by
  simp only [schedStep, hl]
  rw [if_pos hg]

theorem schedStep_accept (now : ℚ) (upd : UpdateResult) (w w2 : SchedWidget) (t : ℚ)
    (h : schedStep now upd w = (w2, some t)) :
    t = now ∧ w2.lastUpdated = some now
      ∧ ∃ l, w.lastUpdated = some l ∧ w.interval ≤ now - l := by
  rcases hl : w.lastUpdated with _ | l
  · rw [schedStep_none now upd w hl] at h
    have h2 := congrArg Prod.snd h
    simp at h2
  · by_cases hg : w.interval ≤ now - l
    · cases upd with
      | ok p =>
        rw [schedStep_ok now p w l hl hg, Prod.mk.injEq] at h
        obtain ⟨h1, h2⟩ := h
        rw [Option.some.injEq] at h2
        refine ⟨h2.symm, ?_, ⟨l, rfl, hg⟩⟩
        rw [← h1]
      | error e =>
        rw [schedStep_err now e w l hl hg, Prod.mk.injEq] at h
        simp at h
    · rw [schedStep_guardFail now upd w l hl hg, Prod.mk.injEq] at h
      simp at h

theorem schedStep_reject (now : ℚ) (upd : UpdateResult) (w w2 : SchedWidget)
    (h : schedStep now upd w = (w2, none)) :
    w2.lastUpdated = w.lastUpdated := by
  rcases hl : w.lastUpdated with _ | l
  · rw [schedStep_none now upd w hl, Prod.mk.injEq] at h
    rw [← h.1]
    exact hl
  · by_cases hg : w.interval ≤ now - l
    · cases upd with
      | ok p =>
        rw [schedStep_ok now p w l hl hg, Prod.mk.injEq] at h
        simp at h
      | error e =>
        rw [schedStep_err now e w l hl hg, Prod.mk.injEq] at h
        rw [← h.1]
        exact hl
    · rw [schedStep_guardFail now upd w l hl hg, Prod.mk.injEq] at h
      rw [← h.1]
      exact hl

theorem acceptedTimes_head (ticks : List (ℚ × UpdateResult)) :
    ∀ (w : SchedWidget) (l t : ℚ), w.lastUpdated = some l →
      (acceptedTimes w ticks).head? = some t → w.interval ≤ t - l := by
  induction ticks with
  | nil => intro w l t _ h; simp [acceptedTimes] at h
  | cons tk rest ih =>
    intro w l t hw hh
    rcases hstep : schedStep tk.1 tk.2 w with ⟨w2, acc⟩
    cases acc with
    | some t2 =>
      simp only [acceptedTimes, hstep, List.head?_cons, Option.some.injEq] at hh
      subst hh
      obtain ⟨ht2, _, l2, hw2, hg⟩ := schedStep_accept tk.1 tk.2 w w2 t2 hstep
      rw [hw] at hw2
      cases hw2
      rw [ht2]
      exact hg
    | none =>
      simp only [acceptedTimes, hstep] at hh
      have hlast := schedStep_reject tk.1 tk.2 w w2 hstep
      have hint : w2.interval = w.interval := by
        have hic := schedStep_interval_const tk.1 tk.2 w
        rw [hstep] at hic
        exact hic
      have := ih w2 l t (by rw [hlast, hw]) hh
      rw [hint] at this
      exact this

theorem acceptedTimes_chain (ticks : List (ℚ × UpdateResult)) :
    ∀ w : SchedWidget,
      List.Chain' (fun a b => w.interval ≤ b - a) (acceptedTimes w ticks) := by
  induction ticks with
  | nil => intro w; simp [acceptedTimes]
  | cons tk rest ih =>
    intro w
    rcases hstep : schedStep tk.1 tk.2 w with ⟨w2, acc⟩
    have hint : w2.interval = w.interval := by
      have hic := schedStep_interval_const tk.1 tk.2 w
      rw [hstep] at hic
      exact hic
    cases acc with
    | some t =>
      simp only [acceptedTimes, hstep]
      rw [List.chain'_cons']
      constructor
      · intro t2 ht2
        obtain ⟨ht, hlast, _⟩ := schedStep_accept tk.1 tk.2 w w2 t hstep
        have hlt : w2.lastUpdated = some t := by rw [hlast, ht]
        have hhead := acceptedTimes_head rest w2 t t2 hlt (Option.mem_def.mp ht2)
        rw [hint] at hhead
        exact hhead
      · have hch := ih w2
        simp only [hint] at hch
        exact hch
    | none =>
      simp only [acceptedTimes, hstep]
      have hch := ih w2
      simp only [hint] at hch
      exact hch

theorem schedulerTickFrom_getElem (now : ℚ) (upd : Nat → UpdateResult) :
    ∀ (ws : List SchedWidget) (k i : Nat),
      (schedulerTickFrom now upd k ws)[i]? =
        (ws[i]?).map (fun w => (schedStep now (upd (k + i)) w).1) := by
  intro ws
  induction ws with
  | nil => intro k i; simp [schedulerTickFrom]
  | cons w rest ih =>
    intro k i
    cases i with
    | zero => simp [schedulerTickFrom]
    | succ i2 =>
      have hk : k + (i2 + 1) = (k + 1) + i2 := by omega
      simp only [schedulerTickFrom, List.getElem?_cons_succ, hk]
      exact ih (k + 1) i2

theorem schedulerTickFrom_length (now : ℚ) (upd : Nat → UpdateResult) :
    ∀ (ws : List SchedWidget) (k : Nat),
      (schedulerTickFrom now upd k ws).length = ws.length := by
  intro ws
  induction ws with
  | nil => intro k; rfl
  | cons w rest ih => intro k; simp [schedulerTickFrom, ih (k + 1)]

theorem schedulerRun_length :
    ∀ (ticks : List (ℚ × (Nat → UpdateResult))) (ws : List SchedWidget),
      (schedulerRun ticks ws).length = ws.length := by
  intro ticks
  induction ticks with
  | nil => intro ws; rfl
  | cons tk rest ih =>
    intro ws
    rw [schedulerRun, ih, schedulerTick, schedulerTickFrom_length]

/-! ## Claim theorems -/

/-- C1: the specification asserts that the Scheduler holds the widget's
lock for the `drawState` assignment and that the Render Loop draws only
from a copy taken under the lock (error text included). The code does
neither: the scheduler's publish (base.py 1085 and 1088) is a plain
assignment with the lock not held, and in the error case the render
loop re-reads the shared `draw_data` outside the lock (main.py 113)
instead of using `data_copy`. -/
theorem c1_lock_discipline :
    c1LockClaimHolds = false
    ∧ schedulerPublishEvt.op = MemOp.writeM
    ∧ schedulerPublishEvt.ref = MemRef.sharedDrawData
    ∧ schedulerPublishEvt.lockHeld = false
    ∧ (⟨MemOp.readM, MemRef.sharedDrawData, false⟩ : AccessEvt) ∈ renderSnapshotEvts true := by
  decide

/-- C5: `updatable()` is true iff an update function is bound, the
interval is non-absent and non-zero, and the widget is enabled; and an
interval comparing equal to `0` is normalized to the absent value
(`None`) by `Config.__init__`. Stated for the interval values that can
reach a built widget and a boolean `enabled`, which is what the
config scan guarantees at startup. -/
theorem c5_updatable_iff :
    (∀ w : WidgetM, isNumericOrAbsent w.interval = true →
      (∃ b, w.enabled = YamlValue.vbool b) →
      (w.updatable = true ↔
        (w.updateFunc ≠ none ∧ w.interval ≠ YamlValue.vnull
          ∧ pyEqZero w.interval = false ∧ w.enabled = YamlValue.vbool true)))
    ∧ (∀ (fileName : String) (raw : RawOptions), pyEqZero raw.interval = true →
        (configInit fileName raw).1.interval = YamlValue.vnull) := by
  constructor
  · rintro ⟨uf, iv, en⟩ hnum ⟨b, hb⟩
    cases hb
    cases uf <;> cases b <;> cases iv <;>
      simp_all [WidgetM.updatable, pyTruthy, pyEqZero, isNumericOrAbsent]
  · intro fileName raw h
    show (if pyEqZero raw.interval then YamlValue.vnull else raw.interval) = YamlValue.vnull
    rw [if_pos h]

/-- C5 witness: a bound update function, interval `5`, enabled widget is
updatable, and a raw interval of `0` is stored as the absent value. -/
theorem c5_witness :
    WidgetM.updatable ⟨some (), YamlValue.vint 5, YamlValue.vbool true⟩ = true
    ∧ (configInit "clock"
        ⟨.vstr "clock", .vstr "Clock", .vbool true, .vint 0,
          .vint 10, .vint 20, .vint 0, .vint 0⟩).1.interval = YamlValue.vnull := by
  constructor
  · exact (c5_updatable_iff.1 ⟨some (), YamlValue.vint 5, YamlValue.vbool true⟩
      (by decide) ⟨true, rfl⟩).mpr ⟨by decide, by decide, by decide, rfl⟩
  · exact c5_updatable_iff.2 "clock" _ (by decide)

/-- C6: for every raw options mapping, each required field that is
missing or of the wrong type contributes an Error-level message naming
the field and the widget; every message the constructor emits is
Error-level; and construction is total — it stores the supplied values
(the placeholder being whatever was given, `None` included) instead of
raising. -/
theorem c6_required_field_validation :
    ∀ (fileName : String) (raw : RawOptions),
      (∀ f : ReqField, fieldBad (reqFieldValue raw f) (reqFieldCheck f) = true →
        (⟨configErrMsg (reqFieldName f) fileName, errorLevel⟩ : LogMessage) ∈
          (configInit fileName raw).2)
      ∧ (∀ m ∈ (configInit fileName raw).2, m.level = errorLevel)
      ∧ (configInit fileName raw).1.name = raw.name
      ∧ (configInit fileName raw).1.title = raw.title
      ∧ (configInit fileName raw).1.enabled = raw.enabled
      ∧ (configInit fileName raw).1.height = raw.height
      ∧ (configInit fileName raw).1.width = raw.width
      ∧ (configInit fileName raw).1.y = raw.y
      ∧ (configInit fileName raw).1.x = raw.x := by
  intro fileName raw
  refine ⟨?_, ?_, rfl, rfl, rfl, rfl, rfl, rfl, rfl⟩
  · intro f hbad
    rw [configInit_snd, List.mem_filterMap]
    exact ⟨f, reqField_mem_list f, by rw [if_pos hbad]⟩
  · intro m hm
    rw [configInit_snd, List.mem_filterMap] at hm
    obtain ⟨f, _, hf⟩ := hm
    by_cases hb : fieldBad (reqFieldValue raw f) (reqFieldCheck f) = true
    · rw [if_pos hb] at hf
      cases hf
      rfl
    · rw [if_neg hb] at hf
      cases hf

/-- C6 witness: a config with `name` absent gets the Error message
naming `name` and the `todo` widget. -/
theorem c6_witness :
    (⟨configErrMsg "name" "todo", errorLevel⟩ : LogMessage) ∈
      (configInit "todo"
        ⟨.vnull, .vstr "To-Do", .vbool true, .vint 5,
          .vint 10, .vint 20, .vint 0, .vint 0⟩).2 :=
  (c6_required_field_validation "todo" _).1 ReqField.fname (by decide)

/-- C7: a failing `update` during a scheduler tick is converted into the
error-marker payload for that widget alone — `last_updated` is kept, the
refresh is not counted as accepted — while every other widget of the
tick is processed exactly as its own update outcome dictates, and the
scheduler loop runs to completion over any number of ticks (no widget
is ever dropped and the thread never terminates on a widget failure). -/
theorem c7_update_failure_isolated :
    (∀ (now : ℚ) (e : String) (w : SchedWidget) (l : ℚ),
        w.lastUpdated = some l → w.interval ≤ now - l →
        (schedStep now (.error e) w).1.drawData = errorDrawData e
        ∧ hasErrorMarker (errorDrawData e) = true
        ∧ (schedStep now (.error e) w).1.lastUpdated = w.lastUpdated
        ∧ (schedStep now (.error e) w).2 = none)
    ∧ (∀ (now : ℚ) (upd : Nat → UpdateResult) (ws : List SchedWidget) (i : Nat),
        (schedulerTick now upd ws)[i]? =
          (ws[i]?).map (fun w => (schedStep now (upd i) w).1))
    ∧ (∀ (ticks : List (ℚ × (Nat → UpdateResult))) (ws : List SchedWidget),
        (schedulerRun ticks ws).length = ws.length) := by
  refine ⟨?_, ?_, schedulerRun_length⟩
  · intro now e w l hl hg
    rw [schedStep_err now e w l hl hg]
    refine ⟨rfl, by simp [hasErrorMarker, errorDrawData], ?_, rfl⟩
    rw [hl]
  · intro now upd ws i
    simpa using schedulerTickFrom_getElem now upd ws 0 i

/-- C7 witness: at tick time 6 a widget with interval 5 last refreshed
at 0 whose update raises gets the error payload and keeps
`last_updated = 0`. -/
theorem c7_witness :
    (schedStep 6 (.error "boom") ⟨5, some 0, DrawData.dictD []⟩).1.drawData
        = errorDrawData "boom"
    ∧ (schedStep 6 (.error "boom") ⟨5, some 0, DrawData.dictD []⟩).1.lastUpdated
        = some 0 := by
  have h := c7_update_failure_isolated.1 6 "boom" ⟨5, some 0, DrawData.dictD []⟩ 0
    rfl (by norm_num)
  exact ⟨h.1, h.2.2.1⟩

/-- C10: a mouse press on empty space clears the highlight, records the
previously focused widget in `previously_highlighted`, and invokes no
widget's `onMouse` handler. -/
theorem c10_empty_click :
    ∀ (ui : UIStateM) (mx my : Int) (ws : List Dim),
      (∀ d ∈ ws, containsPoint d mx my = false) →
      (handleMousePress ui mx my ws).1.highlighted = none
      ∧ (handleMousePress ui mx my ws).1.previouslyHighlighted = ui.highlighted
      ∧ (handleMousePress ui mx my ws).2 = none := by
  intro ui mx my ws h
  have hn := firstHitIdx_eq_none mx my ws h
  exact ⟨hn, rfl, hn⟩

/-- C10 witness: a click at (100, 100) outside the only widget clears
the focus that was on widget 0 and invokes no handler. -/
theorem c10_witness :
    (handleMousePress ⟨none, some 0⟩ 100 100 [⟨5, 10, 2, 3⟩]).1.highlighted = none
    ∧ (handleMousePress ⟨none, some 0⟩ 100 100 [⟨5, 10, 2, 3⟩]).1.previouslyHighlighted
        = some 0
    ∧ (handleMousePress ⟨none, some 0⟩ 100 100 [⟨5, 10, 2, 3⟩]).2 = none :=
  c10_empty_click ⟨none, some 0⟩ 100 100 [⟨5, 10, 2, 3⟩] (by decide)

theorem max?_spec_int (l : List Int) (m : Int) (h : l.max? = some m) :
    m ∈ l ∧ ∀ x ∈ l, x ≤ m := by
  have : Std.Antisymm (α := Int) (· ≤ ·) := ⟨fun h1 h2 => le_antisymm h1 h2⟩
  rw [List.max?_eq_some_iff] at h
  · exact h
  all_goals simp [le_total]

/-- C3: consecutive accepted refreshes of a widget are never separated
by less than its interval, for any sequence of tick times and update
outcomes; a refresh is accepted only when `now - last_updated` is at
least the interval, and acceptance sets `last_updated` to that tick's
`now`; when the elapsed time is below the interval the scheduler leaves
the widget untouched and invokes nothing. -/
theorem c3_no_early_refresh :
    (∀ (w : SchedWidget) (ticks : List (ℚ × UpdateResult)),
        List.Chain' (fun t1 t2 => w.interval ≤ t2 - t1) (acceptedTimes w ticks))
    ∧ (∀ (now : ℚ) (upd : UpdateResult) (w w2 : SchedWidget) (t : ℚ),
        schedStep now upd w = (w2, some t) →
        t = now ∧ w2.lastUpdated = some now
          ∧ ∃ l, w.lastUpdated = some l ∧ w.interval ≤ now - l)
    ∧ (∀ (now : ℚ) (upd : UpdateResult) (w : SchedWidget),
        (∀ l, w.lastUpdated = some l → now - l < w.interval) →
        schedStep now upd w = (w, none)) := by
  refine ⟨fun w ticks => acceptedTimes_chain ticks w,
    fun now upd w w2 t h => schedStep_accept now upd w w2 t h, ?_⟩
  intro now upd w hno
  cases hlu : w.lastUpdated with
  | none => exact schedStep_none now upd w hlu
  | some l => exact schedStep_guardFail now upd w l hlu (not_le.mpr (hno l hlu))

/-- C3 witness: interval 5, ticks at 6, 8, 11 — accepted at 6 and 11,
which are 5 apart; the tick at 8 (elapsed 2 < 5) changes nothing. -/
theorem c3_witness :
    List.Chain'
      (fun t1 t2 => (⟨5, some 0, DrawData.dictD []⟩ : SchedWidget).interval ≤ t2 - t1)
      (acceptedTimes ⟨5, some 0, DrawData.dictD []⟩
        [(6, .ok (DrawData.linesD ["A"])), (8, .ok (DrawData.linesD ["B"])),
          (11, .ok (DrawData.linesD ["C"]))])
    ∧ ((6 : ℚ) = 6
        ∧ (⟨5, some 6, DrawData.linesD ["A"]⟩ : SchedWidget).lastUpdated = some 6
        ∧ ∃ l, (⟨5, some 0, DrawData.dictD []⟩ : SchedWidget).lastUpdated = some l
            ∧ (⟨5, some 0, DrawData.dictD []⟩ : SchedWidget).interval ≤ 6 - l)
    ∧ schedStep 3 (.ok (DrawData.linesD ["A"])) ⟨5, some 0, DrawData.dictD []⟩
        = (⟨5, some 0, DrawData.dictD []⟩, none) := by
  refine ⟨c3_no_early_refresh.1 _ _,
    c3_no_early_refresh.2.1 6 (.ok (DrawData.linesD ["A"])) _ _ 6
      (schedStep_ok 6 (DrawData.linesD ["A"]) ⟨5, some 0, DrawData.dictD []⟩ 0 rfl
        (by show (5 : ℚ) ≤ 6 - 0; norm_num)),
    c3_no_early_refresh.2.2 3 (.ok (DrawData.linesD ["A"])) _ ?_⟩
  intro l hl
  have h2 : (0 : ℚ) = l := by simpa using hl
  subst h2
  show (3 : ℚ) - 0 < 5
  norm_num

/-- C8: the hit-test is inclusive on both edges — the top-left corner
`(x, y)` and the bottom-right corner `(x + width, y + height)` both test
inside; `switch_windows` records the old focus in
`previously_highlighted` before assigning the new one; the widget that
becomes highlighted is the first one in declaration order whose
rectangle contains the point, and a hit always produces a highlight. -/
theorem c8_hit_test :
    (∀ d : Dim, 0 ≤ d.height → 0 ≤ d.width →
        containsPoint d d.x d.y = true
        ∧ containsPoint d (d.x + d.width) (d.y + d.height) = true)
    ∧ (∀ (ui : UIStateM) (mx my : Int) (ws : List Dim),
        (switchWindows ui mx my ws).previouslyHighlighted = ui.highlighted)
    ∧ (∀ (ui : UIStateM) (mx my : Int) (ws : List Dim) (i : Nat),
        (switchWindows ui mx my ws).highlighted = some i →
        ∃ d, ws[i]? = some d ∧ containsPoint d mx my = true
          ∧ ∀ j, j < i → ∀ d2, ws[j]? = some d2 → containsPoint d2 mx my = false)
    ∧ (∀ (ui : UIStateM) (mx my : Int) (ws : List Dim),
        (∃ d ∈ ws, containsPoint d mx my = true) →
        (switchWindows ui mx my ws).highlighted ≠ none) := by
  refine ⟨?_, fun _ _ _ _ => rfl, ?_, ?_⟩
  · intro d h1 h2
    constructor <;>
      · simp only [containsPoint, Bool.and_eq_true, decide_eq_true_eq]
        omega
  · intro ui mx my ws i h
    exact firstHitIdx_spec mx my ws i h
  · intro ui mx my ws h
    exact firstHitIdx_ne_none mx my ws h

/-- C8 witness: for the rectangle at origin (y, x) = (2, 3) with height
5 and width 10, clicks at (3, 2) and (13, 7) are both inside, and a
click at (4, 3) highlights widget 0. -/
theorem c8_witness :
    containsPoint ⟨5, 10, 2, 3⟩ 3 2 = true
    ∧ containsPoint ⟨5, 10, 2, 3⟩ 13 7 = true
    ∧ ∃ d, ([⟨5, 10, 2, 3⟩] : List Dim)[0]? = some d ∧ containsPoint d 4 3 = true
        ∧ ∀ j, j < 0 → ∀ d2, ([⟨5, 10, 2, 3⟩] : List Dim)[j]? = some d2 →
            containsPoint d2 4 3 = false :=
  ⟨(c8_hit_test.1 ⟨5, 10, 2, 3⟩ (by decide) (by decide)).1,
    (c8_hit_test.1 ⟨5, 10, 2, 3⟩ (by decide) (by decide)).2,
    c8_hit_test.2.2.1 ⟨none, none⟩ 4 3 [⟨5, 10, 2, 3⟩] 0 (by decide)⟩

/-- C9: the size check raises exactly when the terminal is smaller in
height or width than the bounding box of the enabled widgets, carrying
the exact current and required dimensions, and stays silent otherwise;
the required bound really is the maximum of `origin + extent` over the
enabled widgets; and the check runs on every frame — the first frame
whose terminal size is too small aborts the loop with exactly that
frame's data, whatever earlier frames looked like. -/
theorem c9_terminal_size_check :
    (∀ (ws : List EWidget) (termH termW rh rwd : Int),
        requiredHeightOpt ws = some rh → requiredWidthOpt ws = some rwd →
        ((frameSizeCheck ws (termH, termW) = some ⟨termH, termW, rh, rwd⟩ ↔
            termH < rh ∨ termW < rwd)
          ∧ (frameSizeCheck ws (termH, termW) = none ↔ rh ≤ termH ∧ rwd ≤ termW)))
    ∧ (∀ (ws : List EWidget) (rh : Int), requiredHeightOpt ws = some rh →
        (∀ w ∈ ws, w.enabled = true → w.dims.height + w.dims.y ≤ rh)
        ∧ ∃ w ∈ ws, w.enabled = true ∧ w.dims.height + w.dims.y = rh)
    ∧ (∀ (ws : List EWidget) (sizes : List (Int × Int)) (k : Nat)
          (szk : Int × Int) (e : TooSmallData),
        (∀ j, j < k → ∀ sz, sizes[j]? = some sz → frameSizeCheck ws sz = none) →
        sizes[k]? = some szk → frameSizeCheck ws szk = some e →
        renderLoopSizeChecks ws sizes = .error e) := by
  refine ⟨?_, ?_, ?_⟩
  · intro ws termH termW rh rwd hrh hrw
    simp only [frameSizeCheck, hrh, hrw, validateTerminalSize]
    constructor
    · constructor
      · intro h
        by_cases hc : termH < rh ∨ termW < rwd
        · exact hc
        · rw [if_neg (by simpa using hc)] at h
          cases h
      · intro h
        rw [if_pos (by simpa using h)]
    · constructor
      · intro h
        by_cases hc : termH < rh ∨ termW < rwd
        · rw [if_pos (by simpa using hc)] at h
          cases h
        · exact ⟨by omega, by omega⟩
      · intro h
        rw [if_neg (by simp only [Bool.or_eq_true, decide_eq_true_eq]; omega)]
  · intro ws rh hrh
    obtain ⟨hmem, hub⟩ := max?_spec_int _ _ hrh
    constructor
    · intro w hw he
      apply hub
      simp only [List.mem_map, List.mem_filter]
      exact ⟨w, ⟨hw, he⟩, rfl⟩
    · simp only [List.mem_map, List.mem_filter] at hmem
      obtain ⟨w, ⟨hw, hen⟩, hval⟩ := hmem
      exact ⟨w, hw, hen, hval⟩
  · intro ws sizes
    induction sizes with
    | nil => intro k szk e _ hk _; simp at hk
    | cons sz rest ih =>
      intro k szk e hprev hk hcheck
      cases k with
      | zero =>
        simp only [List.getElem?_cons_zero, Option.some.injEq] at hk
        subst hk
        simp only [renderLoopSizeChecks, hcheck]
      | succ k2 =>
        have h0 : frameSizeCheck ws sz = none := hprev 0 (by omega) sz (by simp)
        have hrec := ih k2 szk e
          (fun j hj sz2 hsz2 => hprev (j + 1) (by omega) sz2 (by simpa using hsz2))
          (by simpa using hk) hcheck
        simp only [renderLoopSizeChecks, h0, hrec]

/-- C9 witness: one enabled widget needing 20×60; a 10×40 terminal
raises with exactly (10, 40) current and (20, 60) required — also as
the second frame of a run whose first frame was large enough. -/
theorem c9_witness :
    frameSizeCheck [⟨⟨20, 60, 0, 0⟩, true⟩] (10, 40) = some ⟨10, 40, 20, 60⟩
    ∧ renderLoopSizeChecks [⟨⟨20, 60, 0, 0⟩, true⟩] [(25, 70), (10, 40)]
        = .error ⟨10, 40, 20, 60⟩ := by
  constructor
  · exact ((c9_terminal_size_check.1 [⟨⟨20, 60, 0, 0⟩, true⟩] 10 40 20 60
      (by decide) (by decide)).1).mpr (Or.inl (by decide))
  · refine c9_terminal_size_check.2.2 [⟨⟨20, 60, 0, 0⟩, true⟩]
      [(25, 70), (10, 40)] 1 (10, 40) ⟨10, 40, 20, 60⟩ ?_ (by decide) (by decide)
    intro j hj sz hsz
    interval_cases j
    simp only [List.getElem?_cons_zero, Option.some.injEq] at hsz
    subst hsz
    decide

theorem containsError_append (a b : List LogMessage) :
    containsError (a ++ b) = (containsError a || containsError b) := by
  simp [containsError, List.any_append]

theorem containsError_contribution (o : LoadOutcome) :
    containsError (outcomeContribution o) = outcomeHasError o := by
  cases o with
  | ok log =>
    by_cases h : containsError log = true
    · simp [outcomeContribution, outcomeHasError, h]
    · simp only [outcomeContribution, outcomeHasError]
      have h2 : containsError log = false := by simpa using h
      rw [if_neg h, h2]
      rfl
  | error e => simp [outcomeContribution, outcomeHasError, containsError,
      LogMessage.isErrorMsg]

theorem scanFinalLog_eq (base : LoadOutcome) (ws : List LoadOutcome) :
    scanFinalLog base ws =
      outcomeContribution base ++ (ws.map outcomeContribution).flatten := by
  suffices h : ∀ (l : List LoadOutcome) (acc : List LogMessage),
      l.foldl (fun a o => a ++ outcomeContribution o) acc =
        acc ++ (l.map outcomeContribution).flatten by
    exact h ws _
  intro l
  induction l with
  | nil => intro acc; simp
  | cons o rest ih =>
    intro acc
    simp [List.foldl_cons, ih, List.append_assoc]

theorem containsError_flatten (L : List (List LogMessage)) :
    containsError L.flatten = L.any containsError := by
  induction L with
  | nil => simp [containsError]
  | cons a rest ih =>
    simp only [List.flatten_cons, containsError_append, ih, List.any_cons]

theorem scanConfig_some_iff (base : LoadOutcome) (ws : List LoadOutcome) :
    (scanConfig base ws = none ↔ containsError (scanFinalLog base ws) = false)
    ∧ (containsError (scanFinalLog base ws) = true →
        scanConfig base ws = some (scanFinalLog base ws)) := by
  constructor
  · by_cases h : containsError (scanFinalLog base ws) = true
    · simp only [scanConfig]
      rw [if_pos h]
      simp [h]
    · simp only [scanConfig]
      rw [if_neg h]
      simpa using h
  · intro h
    simp only [scanConfig]
    rw [if_pos h]

/-- C4, counterexample to the claim as stated: the scan does not merge
*all* resulting log aggregates into the report. With the base (theme)
validation producing a warning-only aggregate and the `todo` widget's
validation producing one Error (missing `name`), the returned report
holds only the widget's Error — the base warning has been dropped. -/
theorem c4_counterexample :
    scanConfig
        (.ok [⟨"Configuration for background_color is missing (base.yaml, falling back to standard config)", warningLevel⟩])
        [widgetLoadOutcome "todo"
          ⟨.vnull, .vstr "To-Do", .vbool true, .vint 5, .vint 10, .vint 20, .vint 0, .vint 0⟩]
      = some [⟨configErrMsg "name" "todo", errorLevel⟩]
    ∧ (⟨"Configuration for background_color is missing (base.yaml, falling back to standard config)", warningLevel⟩ : LogMessage)
        ∉ [(⟨configErrMsg "name" "todo", errorLevel⟩ : LogMessage)] := by
  constructor
  · decide
  · decide

/-- C4, amended: the scan validates the theme file and every widget
file, but merges into the report only the aggregates that contain at
least one Error-level entry — warning-only aggregates are dropped from
it. A YAML-parse failure behaves exactly like a validation that produced
the single Error message with the exception's text. The scan returns
Success iff no file's outcome carried an Error, so warnings alone never
block startup, and any returned report does contain an Error. -/
theorem c4_scan_merge :
    (∀ (base : LoadOutcome) (pre post : List LoadOutcome) (log : List LogMessage),
        containsError log = false →
        scanConfig base (pre ++ .ok log :: post) = scanConfig base (pre ++ post))
    ∧ (∀ (base : LoadOutcome) (pre post : List LoadOutcome) (log : List LogMessage),
        containsError log = true → ∀ m ∈ log,
        ∃ r, scanConfig base (pre ++ .ok log :: post) = some r ∧ m ∈ r)
    ∧ (∀ (base : LoadOutcome) (pre post : List LoadOutcome) (e : String),
        scanConfig base (pre ++ .error e :: post) =
          scanConfig base (pre ++ .ok [⟨e, errorLevel⟩] :: post))
    ∧ (∀ (base : LoadOutcome) (ws : List LoadOutcome),
        scanConfig base ws = none ↔
          (outcomeHasError base = false ∧ ∀ o ∈ ws, outcomeHasError o = false))
    ∧ (∀ (base : LoadOutcome) (ws : List LoadOutcome) (r : List LogMessage),
        scanConfig base ws = some r → containsError r = true) := by
  refine ⟨?_, ?_, ?_, ?_, ?_⟩
  · intro base pre post log hlog
    have hc : outcomeContribution (.ok log) = [] := by
      simp only [outcomeContribution]
      rw [if_neg (by simpa using hlog)]
    simp [scanConfig, scanFinalLog_eq, hc]
  · intro base pre post log hlog m hm
    have hc : outcomeContribution (.ok log) = log := by
      simp only [outcomeContribution]
      rw [if_pos hlog]
    have hmem : m ∈ scanFinalLog base (pre ++ .ok log :: post) := by
      rw [scanFinalLog_eq]
      simp only [List.map_append, List.map_cons, List.flatten_append,
        List.flatten_cons, hc]
      simp [hm]
    have herr : containsError (scanFinalLog base (pre ++ .ok log :: post)) = true := by
      rw [scanFinalLog_eq]
      simp only [List.map_append, List.map_cons, List.flatten_append,
        List.flatten_cons, hc]
      simp only [containsError_append, hlog]
      simp
    exact ⟨scanFinalLog base (pre ++ .ok log :: post),
      (scanConfig_some_iff base _).2 herr, hmem⟩
  · intro base pre post e
    have hc : outcomeContribution (.error e) =
        outcomeContribution (.ok [⟨e, errorLevel⟩]) := by
      simp [outcomeContribution, containsError, LogMessage.isErrorMsg]
    simp [scanConfig, scanFinalLog_eq, hc]
  · intro base ws
    rw [(scanConfig_some_iff base ws).1, scanFinalLog_eq, containsError_append,
      containsError_flatten]
    constructor
    · intro h
      rw [Bool.or_eq_false_iff] at h
      obtain ⟨h1, h2⟩ := h
      rw [containsError_contribution] at h1
      refine ⟨h1, ?_⟩
      intro o ho
      rw [List.any_eq_false] at h2
      have h3 := h2 (outcomeContribution o) (List.mem_map_of_mem _ ho)
      rw [containsError_contribution] at h3
      simpa using h3
    · intro h
      obtain ⟨h1, h2⟩ := h
      rw [Bool.or_eq_false_iff]
      refine ⟨by rw [containsError_contribution]; exact h1, ?_⟩
      rw [List.any_eq_false]
      intro c hc
      rw [List.mem_map] at hc
      obtain ⟨o, ho, rfl⟩ := hc
      rw [containsError_contribution]
      simp [h2 o ho]
  · intro base ws r h
    simp only [scanConfig] at h
    split_ifs at h with hc
    injection h with hr
    rw [← hr]
    exact hc

/-- C4 witness: a warning-only widget aggregate is dropped without
changing the result; a parse failure equals a single-Error validation;
and an error-free scan returns Success. -/
theorem c4_witness :
    scanConfig (.ok []) ([] ++ Except.ok [⟨"w", warningLevel⟩] :: [])
        = scanConfig (.ok []) ([] ++ [])
    ∧ scanConfig (.ok []) ([] ++ Except.error "bad yaml" :: [])
        = scanConfig (.ok []) ([] ++ Except.ok [⟨"bad yaml", errorLevel⟩] :: [])
    ∧ scanConfig (.ok []) [] = none := by
  refine ⟨c4_scan_merge.1 (.ok []) [] [] [⟨"w", warningLevel⟩] (by decide),
    c4_scan_merge.2.2.1 (.ok []) [] [] "bad yaml",
    (c4_scan_merge.2.2.2.1 (.ok []) []).mpr ⟨by decide, ?_⟩⟩
  intro o ho
  simp at ho

theorem sliceStart_bounds (n h m : Int) (hm : 0 < m) (hn : m < n) (h0 : 0 ≤ h)
    (hh : h < n) :
    0 ≤ sliceStart n h m ∧ sliceStart n h m ≤ h
      ∧ h < sliceStart n h m + m ∧ sliceStart n h m + m ≤ n := by
  simp only [sliceStart]
  split_ifs with hc <;> omega

theorem sliceStart_last (n m : Int) (hm : 0 < m) (hn : m < n) :
    sliceStart n (n - 1) m + m = n := by
  simp only [sliceStart]
  split_ifs with hc <;> omega

theorem renderTodos_long_eq (todos : List String) (h m : Int)
    (hmn : m < (todos.length : Int)) :
    renderTodos todos (some h) m =
      if sliceStart (todos.length : Int) h m + m < (todos.length : Int) then
        ((todos.drop (sliceStart (todos.length : Int) h m).toNat).take
            (sliceStart (todos.length : Int) h m + m
              - sliceStart (todos.length : Int) h m).toNat
          ++ ["..."],
          some (if m ≤ h - sliceStart (todos.length : Int) h m then m - 1
            else h - sliceStart (todos.length : Int) h m))
      else
        ((todos.drop (sliceStart (todos.length : Int) h m).toNat).take
            (sliceStart (todos.length : Int) h m + m
              - sliceStart (todos.length : Int) h m).toNat,
          some (h - sliceStart (todos.length : Int) h m)) := by
  simp only [renderTodos, Option.map_some']
  rw [if_neg (not_le.mpr hmn)]

/-- C2, counterexample to the claim as stated: with the to-do list
`["a","b","c","d"]`, window size 3 and the highlight on the final
element (index 3), `render_todos` clamps the window to the end of the
list and returns `(["b","c","d"], 2)` — the highlight is present at the
last slot but no ellipsis line is appended, whereas the claim asserts
that in exactly this case an ellipsis is appended and the highlight is
pinned because of it. -/
theorem c2_counterexample :
    renderTodos ["a", "b", "c", "d"] (some 3) 3 = (["b", "c", "d"], some 2)
    ∧ "..." ∉ (renderTodos ["a", "b", "c", "d"] (some 3) 3).1 := by
  constructor
  · decide
  · decide

/-- C2, amended: a list no longer than the window is returned unchanged
with the highlight unchanged and no ellipsis. For a longer list and a
valid highlighted index, the highlighted element is always present in
the returned window (the relative index r satisfies 0 ≤ r < window and
slot r holds the highlighted line) — including when the highlight is the
final element, in which case the window is clamped to the end of the
list, no ellipsis is appended (output length stays the window size,
versus window size + 1 when an ellipsis is appended), and the highlight
occupies the last visible slot r = window − 1. -/
theorem c2_windowed_rendering :
    (∀ (todos : List String) (hl : Option Int) (m : Int),
        (todos.length : Int) ≤ m → renderTodos todos hl m = (todos, hl))
    ∧ (∀ (todos : List String) (h m : Int),
        0 < m → m < (todos.length : Int) → 0 ≤ h → h < (todos.length : Int) →
        ∃ r : Int, (renderTodos todos (some h) m).2 = some r
          ∧ 0 ≤ r ∧ r < m
          ∧ (renderTodos todos (some h) m).1[r.toNat]? = todos[h.toNat]?
          ∧ ((renderTodos todos (some h) m).1.length = m.toNat
              ∨ (renderTodos todos (some h) m).1.length = m.toNat + 1)
          ∧ (h = (todos.length : Int) - 1 →
              r = m - 1 ∧ (renderTodos todos (some h) m).1.length = m.toNat)) := by
  constructor
  · intro todos hl m hle
    simp only [renderTodos]
    rw [if_pos hle]
  · intro todos h m hm hmn h0 hh
    obtain ⟨hs0, hsh, hhs, hsn⟩ :=
      sliceStart_bounds (todos.length : Int) h m hm hmn h0 hh
    have hred := renderTodos_long_eq todos h m hmn
    set s := sliceStart (todos.length : Int) h m with hsdef
    have htake : s + m - s = m := by ring
    rw [htake] at hred
    have hvislen : ((todos.drop s.toNat).take m.toNat).length = m.toNat := by
      rw [List.length_take, List.length_drop]
      omega
    have hgetvis : ((todos.drop s.toNat).take m.toNat)[(h - s).toNat]?
        = todos[h.toNat]? := by
      rw [List.getElem?_take_of_lt (by omega), List.getElem?_drop]
      congr 1
      omega
    by_cases hc : s + m < (todos.length : Int)
    · rw [if_pos hc] at hred
      have hrel : (if m ≤ h - s then m - 1 else h - s) = h - s := by
        rw [if_neg (by omega)]
      rw [hrel] at hred
      refine ⟨h - s, ?_, by omega, by omega, ?_, ?_, ?_⟩
      · rw [hred]
      · rw [hred]
        show (((todos.drop s.toNat).take m.toNat) ++ ["..."])[(h - s).toNat]?
          = todos[h.toNat]?
        rw [List.getElem?_append_left (by rw [hvislen]; omega)]
        exact hgetvis
      · rw [hred]
        right
        show (((todos.drop s.toNat).take m.toNat) ++ ["..."]).length = m.toNat + 1
        rw [List.length_append, hvislen]
        rfl
      · intro hfin
        exfalso
        have hlast := sliceStart_last (todos.length : Int) m hm hmn
        rw [hsdef, hfin] at hc
        omega
    · rw [if_neg hc] at hred
      refine ⟨h - s, ?_, by omega, by omega, ?_, ?_, ?_⟩
      · rw [hred]
      · rw [hred]
        exact hgetvis
      · rw [hred]
        left
        exact hvislen
      · intro hfin
        refine ⟨by omega, ?_⟩
        rw [hred]
        exact hvislen

/-- C2 witness: a 2-element list with window 5 is returned unchanged;
for the 5-element list with window 3 and the highlight on the final
element (index 4) the amended description holds. -/
theorem c2_witness :
    renderTodos ["x", "y"] (some 1) 5 = (["x", "y"], some 1)
    ∧ ∃ r : Int, (renderTodos ["a", "b", "c", "d", "e"] (some 4) 3).2 = some r
        ∧ 0 ≤ r ∧ r < 3
        ∧ (renderTodos ["a", "b", "c", "d", "e"] (some 4) 3).1[r.toNat]?
            = (["a", "b", "c", "d", "e"] : List String)[(4 : Int).toNat]?
        ∧ ((renderTodos ["a", "b", "c", "d", "e"] (some 4) 3).1.length = (3 : Int).toNat
            ∨ (renderTodos ["a", "b", "c", "d", "e"] (some 4) 3).1.length
                = (3 : Int).toNat + 1)
        ∧ ((4 : Int) = ((["a", "b", "c", "d", "e"] : List String).length : Int) - 1 →
            r = 3 - 1
            ∧ (renderTodos ["a", "b", "c", "d", "e"] (some 4) 3).1.length
                = (3 : Int).toNat) :=
  ⟨c2_windowed_rendering.1 ["x", "y"] (some 1) 5 (by decide),
    c2_windowed_rendering.2 ["a", "b", "c", "d", "e"] 4 3 (by decide) (by decide)
      (by decide) (by decide)⟩

end TWidgets
